import Mathlib

/-!
Verification development for the chrome-cache-parser repository (a reader of
the Chromium block-file disk-cache format).  The Rust sources under `src/` are
shallowly embedded below: machine integers become `Nat`/`Int` with explicit
masks and casts, byte buffers (`Vec<u8>` behind `Rc`) become a length plus an
indexing function, fallible operations return `Except`, and a Rust panic is
modelled as the `none` case of an outer `Option`.
-/

/-! ## cache_address.rs -/

def FILE_TYPE_MASK : Nat := 0x70000000

def FILE_TYPE_OFFSET : Nat := 28

def FILE_NAME_MASK : Nat := 0x0FFFFFFF

def FILE_SELECTOR_MASK : Nat := 0x00ff0000

def FILE_SELECTOR_OFFSET : Nat := 16

def START_BLOCK_MASK : Nat := 0x0000FFFF

def NUM_BLOCKS_MASK : Nat := 0x03000000

def NUM_BLOCKS_OFFSET : Nat := 24

/-- The `FileType` enum of `cache_address.rs`. -/
inductive FileType where
  | external
  | rankings
  | block256
  | block1k
  | block4k
  | blockFiles
  | blockEntries
  | blockEvicted
deriving DecidableEq

/-- A `CacheAddr` is a raw 32-bit value; we carry it as the `Nat` it wraps. -/
abbrev CacheAddr := Nat

/-- `CacheAddr::is_initialized`: `self.value != 0`. -/
def is_initialized (v : CacheAddr) : Bool := v != 0

/-- `CacheAddr::file_type`: match on `(value & FILE_TYPE_MASK) >> FILE_TYPE_OFFSET`.
The source panics on a tag outside `0..8`; that panic branch is the `none` case. -/
def file_type (v : CacheAddr) : Option FileType :=
  match (v &&& FILE_TYPE_MASK) >>> FILE_TYPE_OFFSET with
  | 0 => some FileType.external
  | 1 => some FileType.rankings
  | 2 => some FileType.block256
  | 3 => some FileType.block1k
  | 4 => some FileType.block4k
  | 5 => some FileType.blockFiles
  | 6 => some FileType.blockEntries
  | 7 => some FileType.blockEvicted
  | _ => none

/-- `CacheAddr::file_number`: external addresses use the low 28 bits, all other
types the selector field.  `none` would be the panic inherited from `file_type`. -/
def file_number (v : CacheAddr) : Option Nat :=
  match file_type v with
  | none => none
  | some FileType.external => some (v &&& FILE_NAME_MASK)
  | some _ => some ((v &&& FILE_SELECTOR_MASK) >>> FILE_SELECTOR_OFFSET)

/-- `CacheAddr::start_block`. -/
def start_block (v : CacheAddr) : Nat := v &&& START_BLOCK_MASK

/-- `CacheAddr::num_blocks`. -/
def num_blocks (v : CacheAddr) : Nat :=
  ((v &&& NUM_BLOCKS_MASK) >>> NUM_BLOCKS_OFFSET) + 1

/-! ## error.rs

`CCPError` as declared in `error.rs`; the `Io` variant's wrapped
`std::io::Error` payload is dropped.  `block_file.rs` additionally constructs
`CCPError::InvalidState`, so that variant is part of the crate's error type as
well. -/

inductive CCPError where
  | io
  | unsupportedVersion (s : String)
  | invalidData (s : String)
  | dataMisalignment (s : String)
  | indexDoesNotExist (s : String)
  | cacheLocationCouldNotBeDetermined
  | invalidTimestamp (raw : Nat)
  | invalidState (s : String)
deriving DecidableEq

/-! ## Byte buffers

A `ByteBuf` models a fully loaded `Vec<u8>`: its length and a function giving
the byte at each index (bytes past `len` are irrelevant). -/

structure ByteBuf where
  len : Nat
  byteAt : Nat → Nat

/-- Rust slice indexing `buf[s..e]`: panics (`none`) unless `s ≤ e ≤ buf.len`. -/
def ByteBuf.index (b : ByteBuf) (s e : Nat) : Option ByteBuf :=
  if s ≤ e ∧ e ≤ b.len then some ⟨e - s, fun i => b.byteAt (s + i)⟩ else none

/-- Little-endian 16-bit read at `off`. -/
def le16 (b : ByteBuf) (off : Nat) : Nat :=
  b.byteAt off + 256 * b.byteAt (off + 1)

/-- Little-endian 32-bit read at `off`. -/
def le32 (b : ByteBuf) (off : Nat) : Nat :=
  b.byteAt off + 256 * b.byteAt (off + 1) + 65536 * b.byteAt (off + 2) +
    16777216 * b.byteAt (off + 3)

/-- Little-endian 64-bit read at `off`. -/
def le64 (b : ByteBuf) (off : Nat) : Nat :=
  le32 b off + 4294967296 * le32 b (off + 4)

/-- Reinterpret a `u16` bit pattern as an `i16`. -/
def i16_of_u16 (x : Nat) : Int :=
  if x < 2 ^ 15 then (x : Int) else (x : Int) - 2 ^ 16

/-- Reinterpret a `u32` bit pattern as an `i32`. -/
def i32_of_u32 (x : Nat) : Int :=
  if x < 2 ^ 31 then (x : Int) else (x : Int) - 2 ^ 32

/-- Rust's `as usize` cast from `i32` on a 64-bit target (sign-extension). -/
def i32_as_usize (x : Int) : Nat := (x % (2 ^ 64 : Int)).toNat

/-- Reinterpret a `u64` value as an `i64` (Rust's `as i64`). -/
def u64_as_i64 (x : Nat) : Int :=
  if x < 2 ^ 63 then (x : Int) else (x : Int) - 2 ^ 64

/-! ## time.rs -/

def MICROSEC_PER_SEC : Nat := 1000000

def NANOSEC_PER_MICROSEC : Nat := 1000

def WIN_TO_UNIX_EPOCH_DELTA_SEC : Nat := 11644473600

def WIN_TO_UNIX_EPOCH_DIFF_MICROSEC : Nat :=
  WIN_TO_UNIX_EPOCH_DELTA_SEC * MICROSEC_PER_SEC

/-- `u64::checked_sub`. -/
def u64_checked_sub (a b : Nat) : Option Nat :=
  if b ≤ a then some (a - b) else none

/-- Smallest timestamp (in seconds) representable by chrono's `DateTime`
(January 1 of year -262144, proleptic Gregorian). -/
def CHRONO_MIN_TIMESTAMP_SECS : Int := -8334632851200

/-- Largest timestamp (in seconds) representable by chrono's `DateTime`
(December 31 of year 262143, 23:59:59). -/
def CHRONO_MAX_TIMESTAMP_SECS : Int := 8210298412799

/-- Models the external chrono library's `DateTime::from_timestamp`: `none`
exactly when the seconds fall outside chrono's representable range (about
262000 years either side of the common era) or the nanoseconds are at least
2·10⁹.  A UTC instant is represented by its (seconds, nanoseconds) pair. -/
def DateTime.from_timestamp (secs : Int) (nsecs : Nat) : Option (Int × Nat) :=
  if CHRONO_MIN_TIMESTAMP_SECS ≤ secs ∧ secs ≤ CHRONO_MAX_TIMESTAMP_SECS ∧
      nsecs < 2000000000 then
    some (secs, nsecs)
  else none

/-- `WindowsEpochMicroseconds::into_datetime_utc` from `time.rs`. -/
def into_datetime_utc (raw : Nat) : Except CCPError (Int × Nat) :=
  match u64_checked_sub raw WIN_TO_UNIX_EPOCH_DIFF_MICROSEC with
  | none => Except.error (CCPError.invalidTimestamp raw)
  | some unix_micro =>
    match DateTime.from_timestamp (u64_as_i64 (unix_micro / MICROSEC_PER_SEC))
        ((unix_micro % MICROSEC_PER_SEC) * NANOSEC_PER_MICROSEC) with
    | none => Except.error (CCPError.invalidTimestamp raw)
    | some dt => Except.ok dt

/-! ## block_file.rs: constants, header, entries -/

def BLOCK_MAGIC : Nat := 0xc104cac3

def BLOCK_HEADER_SIZE : Nat := 8192

def INLINE_KEY_SIZE : Nat := 160

/-- `BlockFileHeader` (`disk_format_base.h` layout, 8192 bytes).  The
`allocation_map` bitmap is kept as its sequence of `u32` words. -/
structure BlockFileHeader where
  magic : Nat
  version : Nat
  this_file : Int
  next_file : Int
  entry_size : Int
  num_entries : Int
  max_entries : Int
  empty : List Int
  hints : List Int
  updating : Int
  user : List Int
  allocation_map : Nat → Nat

/-- Field-by-field decode of a `BlockFileHeader` from a byte view. -/
def parseBlockFileHeader (b : ByteBuf) : BlockFileHeader where
  magic := le32 b 0
  version := le32 b 4
  this_file := i16_of_u16 (le16 b 8)
  next_file := i16_of_u16 (le16 b 10)
  entry_size := i32_of_u32 (le32 b 12)
  num_entries := i32_of_u32 (le32 b 16)
  max_entries := i32_of_u32 (le32 b 20)
  empty := [i32_of_u32 (le32 b 24), i32_of_u32 (le32 b 28),
            i32_of_u32 (le32 b 32), i32_of_u32 (le32 b 36)]
  hints := [i32_of_u32 (le32 b 40), i32_of_u32 (le32 b 44),
            i32_of_u32 (le32 b 48), i32_of_u32 (le32 b 52)]
  updating := i32_of_u32 (le32 b 56)
  user := [i32_of_u32 (le32 b 60), i32_of_u32 (le32 b 64), i32_of_u32 (le32 b 68),
           i32_of_u32 (le32 b 72), i32_of_u32 (le32 b 76)]
  allocation_map := fun w => le32 b (80 + 4 * w)

/-- `zerocopy`'s `BlockFileHeader::ref_from`: succeeds exactly on a view of the
struct's size (pointer alignment, a property of the host allocator, is not
modelled). -/
def BlockFileHeader.ref_from (b : ByteBuf) : Option BlockFileHeader :=
  if b.len = BLOCK_HEADER_SIZE then some (parseBlockFileHeader b) else none

/-- `BufferSlice`: a shared buffer plus `start` and `size` of a sub-range. -/
structure BufferSlice where
  buffer : ByteBuf
  start : Nat
  size : Nat

/-- `BufferSlice::get`: `&self.buffer[self.start..self.start + self.size]`;
panics (`none`) when the range reaches past the end of the buffer. -/
def BufferSlice.get (s : BufferSlice) : Option ByteBuf :=
  if s.start + s.size ≤ s.buffer.len then
    some ⟨s.size, fun i => s.buffer.byteAt (s.start + i)⟩
  else none

/-- `BlockCacheEntryState` of `block_file.rs`. -/
inductive BlockCacheEntryState where
  | normal
  | evicted
  | doomed
  | unknown
deriving DecidableEq

/-- `From<i32> for BlockCacheEntryState`, i.e. `BlockCacheEntryStateField::kind`. -/
def BlockCacheEntryState.from_i32 (value : Int) : BlockCacheEntryState :=
  if value = 0 then BlockCacheEntryState.normal
  else if value = 1 then BlockCacheEntryState.evicted
  else if value = 2 then BlockCacheEntryState.doomed
  else BlockCacheEntryState.unknown

/-- `BlockFileCacheEntry` (`disk_format.h` layout, 256 bytes).  The `state`
field keeps the raw `i32` of `BlockCacheEntryStateField`; the inline key is the
list of its 160 bytes. -/
structure BlockFileCacheEntry where
  hash : Nat
  next : CacheAddr
  rankings_node : CacheAddr
  reuse_count : Int
  refetch_count : Int
  state : Int
  creation_time : Nat
  key_len : Int
  long_key : CacheAddr
  data_size : List Int
  data_addr : List CacheAddr
  flags : Nat
  pad : List Nat
  self_hash : Nat
  key : List Nat
deriving DecidableEq

/-- Field-by-field decode of a `BlockFileCacheEntry` from a 256-byte view. -/
def parseBlockFileCacheEntry (b : ByteBuf) : BlockFileCacheEntry where
  hash := le32 b 0
  next := le32 b 4
  rankings_node := le32 b 8
  reuse_count := i32_of_u32 (le32 b 12)
  refetch_count := i32_of_u32 (le32 b 16)
  state := i32_of_u32 (le32 b 20)
  creation_time := le64 b 24
  key_len := i32_of_u32 (le32 b 32)
  long_key := le32 b 36
  data_size := [i32_of_u32 (le32 b 40), i32_of_u32 (le32 b 44),
                i32_of_u32 (le32 b 48), i32_of_u32 (le32 b 52)]
  data_addr := [le32 b 56, le32 b 60, le32 b 64, le32 b 68]
  flags := le32 b 72
  pad := [le32 b 76, le32 b 80, le32 b 84, le32 b 88]
  self_hash := le32 b 92
  key := (List.range INLINE_KEY_SIZE).map (fun i => b.byteAt (96 + i))

/-- `zerocopy`'s `BlockFileCacheEntry::ref_from`: succeeds exactly on a view of
256 bytes (alignment not modelled). -/
def BlockFileCacheEntry.ref_from (b : ByteBuf) : Option BlockFileCacheEntry :=
  if b.len = 256 then some (parseBlockFileCacheEntry b) else none

/-- `RankingsNode` (36 bytes, packed(4)). -/
structure RankingsNode where
  last_used : Nat
  last_modified : Nat
  next : CacheAddr
  prev : CacheAddr
  contents : CacheAddr
  dirty : Int
  self_hash : Nat
deriving DecidableEq

/-- Field-by-field decode of a `RankingsNode` from a 36-byte view. -/
def parseRankingsNode (b : ByteBuf) : RankingsNode where
  last_used := le64 b 0
  last_modified := le64 b 8
  next := le32 b 16
  prev := le32 b 20
  contents := le32 b 24
  dirty := i32_of_u32 (le32 b 28)
  self_hash := le32 b 32

/-- `zerocopy`'s `RankingsNode::ref_from`. -/
def RankingsNode.ref_from (b : ByteBuf) : Option RankingsNode :=
  if b.len = 36 then some (parseRankingsNode b) else none

/-! ## block_file.rs: LazyBlockFile, DataFiles, the entry chain iterator -/

/-- The message of the invalid-data error for a wrong block magic:
`format!("expected block magic {:x}, got {:x}", BLOCK_MAGIC, header.magic)`. -/
def blockMagicMsg (got : Nat) : String :=
  "expected block magic " ++ (Nat.toDigits 16 BLOCK_MAGIC).asString ++
    ", got " ++ (Nat.toDigits 16 got).asString

/-- `LazyBlockFile::header`: slices the first 8192 bytes (a Rust panic — the
outer `none` — when the buffer is shorter), overlays the header struct, then
checks the magic. -/
def LazyBlockFile.header (b : ByteBuf) : Option (Except CCPError BlockFileHeader) :=
  match b.index 0 BLOCK_HEADER_SIZE with
  | none => none
  | some hb =>
    match BlockFileHeader.ref_from hb with
    | none => some (Except.error (CCPError.dataMisalignment ("block file header")))
    | some h =>
      if h.magic ≠ BLOCK_MAGIC then
        some (Except.error (CCPError.invalidData (blockMagicMsg h.magic)))
      else some (Except.ok h)

/-- `LazyBlockFile::get_buffer`: validates the header, then returns the slice
`[HEADER_SIZE + start_block*entry_size, +entry_size)` with no bounds check. -/
def LazyBlockFile.get_buffer (b : ByteBuf) (addr : CacheAddr) :
    Option (Except CCPError BufferSlice) :=
  match LazyBlockFile.header b with
  | none => none
  | some (Except.error e) => some (Except.error e)
  | some (Except.ok h) =>
    some (Except.ok
      ⟨b, BLOCK_HEADER_SIZE + start_block addr * i32_as_usize h.entry_size,
        i32_as_usize h.entry_size⟩)

/-- `LazyBlockFileCacheEntry::get`: extract the slice's bytes (panic — outer
`none` — if out of range) and overlay the 256-byte entry. -/
def LazyBlockFileCacheEntry.get (s : BufferSlice) :
    Option (Except CCPError BlockFileCacheEntry) :=
  match s.get with
  | none => none
  | some bytes =>
    match BlockFileCacheEntry.ref_from bytes with
    | none => some (Except.error (CCPError.dataMisalignment
        ("block file cache entry at " ++ toString s.start)))
    | some e => some (Except.ok e)

/-- The `DataFiles` registry, as the map its lazy, memoized loading realizes:
file number to the fully read bytes of `data_<n>`, `none` when opening or
reading that file fails.  Memoization only avoids repeated reads and does not
change the mapping, so it is not modelled. -/
abbrev DataFilesMap := Nat → Option ByteBuf

/-- `DataFiles::get`: an `Io` error when the file cannot be opened and read. -/
def DataFiles.get (files : DataFilesMap) (file_number : Nat) : Except CCPError ByteBuf :=
  match files file_number with
  | some b => Except.ok b
  | none => Except.error CCPError.io

/-- `DataFiles::get_entry`: resolve the owning file by `addr.file_number()`
(whose unreachable panic is the outer `none`), then `get_buffer`. -/
def DataFiles.get_entry (files : DataFilesMap) (addr : CacheAddr) :
    Option (Except CCPError BufferSlice) :=
  match file_number addr with
  | none => none
  | some n =>
    match DataFiles.get files n with
    | Except.error e => some (Except.error e)
    | Except.ok b => LazyBlockFile.get_buffer b addr

/-- Outcome of one `LazyBlockFileCacheEntryIterator::next` call: a Rust panic,
`None` (end of sequence), or `Some(item)` together with the iterator's new
`current` address.  The yielded item is the lazy view's buffer slice (the Rust
item also carries the shared `DataFiles` handle and the cache path, which are
ambient here). -/
inductive StepResult where
  | panic
  | done
  | yield (item : BufferSlice) (next : Option CacheAddr)

/-- One step of `LazyBlockFileCacheEntryIterator::next` from `block_file.rs`:
take `current`; resolve it (`.ok()?` turns an error into end-of-sequence);
peek the parsed entry's `next` field to schedule the new `current`; yield the
lazy view. -/
def LazyBlockFileCacheEntryIterator.nextStep (files : DataFilesMap)
    (current : Option CacheAddr) : StepResult :=
  match current with
  | none => StepResult.done
  | some cur =>
    match DataFiles.get_entry files cur with
    | none => StepResult.panic
    | some (Except.error _) => StepResult.done
    | some (Except.ok slice) =>
      match LazyBlockFileCacheEntry.get slice with
      | none => StepResult.panic
      | some (Except.ok e) =>
        StepResult.yield slice (if is_initialized e.next then some e.next else none)
      | some (Except.error _) => StepResult.yield slice none

/-- Drive the iterator for at most `fuel` steps, collecting the yielded items
(a panic or the end of the sequence stops the collection). -/
def LazyBlockFileCacheEntryIterator.run (files : DataFilesMap) :
    Nat → Option CacheAddr → List BufferSlice
  | 0, _ => []
  | fuel + 1, cur =>
    match LazyBlockFileCacheEntryIterator.nextStep files cur with
    | StepResult.yield item newCur =>
      item :: LazyBlockFileCacheEntryIterator.run files fuel newCur
    | _ => []

/-! ## block_file.rs: stream readers -/

/-- The two reader shapes `stream_readers` constructs: `ExternalFileReader`
(address and cache path, file opened lazily on first read) and
`BlockFileStreamReader` (address and byte bound `size`). -/
inductive Reader where
  | external (addr : CacheAddr) (cachePath : String)
  | blockStream (addr : CacheAddr) (size : Nat)
deriving DecidableEq

/-- Rust's `Debug` names for `FileType`, used in the invalid-state message. -/
def FileType.debugName : FileType → String
  | FileType.external => "External"
  | FileType.rankings => "Rankings"
  | FileType.block256 => "Block256"
  | FileType.block1k => "Block1k"
  | FileType.block4k => "Block4k"
  | FileType.blockFiles => "BlockFiles"
  | FileType.blockEntries => "BlockEntries"
  | FileType.blockEvicted => "BlockEvicted"

/-- The per-slot closure of `stream_readers`: dispatch on `addr.file_type()`.
The outer `none` is the (unreachable) panic of `file_type`. -/
def mkStreamReader (cachePath : String) (addr : CacheAddr) (size : Int) :
    Option (Except CCPError Reader) :=
  match file_type addr with
  | none => none
  | some FileType.external => some (Except.ok (Reader.external addr cachePath))
  | some FileType.block1k => some (Except.ok (Reader.blockStream addr (i32_as_usize size)))
  | some FileType.block256 => some (Except.ok (Reader.blockStream addr (i32_as_usize size)))
  | some FileType.block4k => some (Except.ok (Reader.blockStream addr (i32_as_usize size)))
  | some ft => some (Except.error (CCPError.invalidState
      ("Requested stream reader of nonsense address type " ++ ft.debugName)))

/-- `Iterator::map(..).collect::<Vec<_>>()` over the four slots; a panic in any
slot (never reached) aborts the whole call. -/
def collectReaders (cachePath : String) : List (CacheAddr × Int) →
    Option (List (Except CCPError Reader))
  | [] => some []
  | p :: rest =>
    match mkStreamReader cachePath p.1 p.2, collectReaders cachePath rest with
    | some r, some rs => some (r :: rs)
    | _, _ => none

/-- `LazyBlockFileCacheEntry::stream_readers`: parse the entry (any failure
becomes one `InvalidState` error for the whole call), then build one reader
result per `(data_addr, data_size)` pair. -/
def LazyBlockFileCacheEntry.stream_readers (cachePath : String) (s : BufferSlice) :
    Option (Except CCPError (List (Except CCPError Reader))) :=
  match LazyBlockFileCacheEntry.get s with
  | none => none
  | some (Except.error _) =>
    some (Except.error (CCPError.invalidState ("Unable to read entry")))
  | some (Except.ok e) =>
    match collectReaders cachePath (e.data_addr.zip e.data_size) with
    | none => none
    | some rs => some (Except.ok rs)

/-- Total restatement of the per-slot dispatch of `stream_readers`; the last
branch is unreachable because `file_type` never returns `none`
(`file_type_total` below). -/
def slotResult (cachePath : String) (addr : CacheAddr) (size : Int) :
    Except CCPError Reader :=
  match file_type addr with
  | some FileType.external => Except.ok (Reader.external addr cachePath)
  | some FileType.block1k => Except.ok (Reader.blockStream addr (i32_as_usize size))
  | some FileType.block256 => Except.ok (Reader.blockStream addr (i32_as_usize size))
  | some FileType.block4k => Except.ok (Reader.blockStream addr (i32_as_usize size))
  | some ft => Except.error (CCPError.invalidState
      ("Requested stream reader of nonsense address type " ++ ft.debugName))
  | none => Except.error (CCPError.invalidState ("unreachable"))

/-- Lowercase hex digits, with fuel for structural recursion. -/
def hexCharsAux : Nat → Nat → List Char
  | 0, _ => []
  | fuel + 1, n =>
    if n < 16 then [Nat.digitChar n]
    else hexCharsAux fuel (n / 16) ++ [Nat.digitChar (n % 16)]

/-- Lowercase hex rendering of `n` (Rust's `{:x}` has no leading zeros and
renders 0 as "0"). -/
def hexChars (n : Nat) : List Char := hexCharsAux (n + 1) n

/-- The file name `ExternalFileReader::read` opens on its first call:
`format!("f_{:0>6x}", self.addr.file_number())` — lowercase hex, right-aligned
into at least six `0`s.  The outer `none` is `file_number`'s unreachable panic. -/
def externalFileName (addr : CacheAddr) : Option String :=
  match file_number addr with
  | none => none
  | some n =>
    some (String.mk ('f' :: '_' ::
      (List.replicate (6 - (hexChars n).length) '0' ++ hexChars n)))

/-! ## block_file.rs: InlineCacheKey formatting -/

/-- UTF-8 continuation byte. -/
def utf8Cont (b : Nat) : Bool := decide (0x80 ≤ b ∧ b ≤ 0xBF)

/-- Validity of a byte sequence under `std::str::from_utf8` (RFC 3629 UTF-8:
no overlong forms, no surrogates, no code points above U+10FFFF). -/
def utf8Valid : List Nat → Bool
  | [] => true
  | b :: rest =>
    if b < 0x80 then utf8Valid rest
    else if b < 0xC2 then false
    else if b < 0xE0 then
      match rest with
      | c1 :: r => utf8Cont c1 && utf8Valid r
      | [] => false
    else if b < 0xF0 then
      match rest with
      | c1 :: c2 :: r =>
        (if b = 0xE0 then decide (0xA0 ≤ c1 ∧ c1 ≤ 0xBF)
         else if b = 0xED then decide (0x80 ≤ c1 ∧ c1 ≤ 0x9F)
         else utf8Cont c1) && utf8Cont c2 && utf8Valid r
      | _ => false
    else if b < 0xF5 then
      match rest with
      | c1 :: c2 :: c3 :: r =>
        (if b = 0xF0 then decide (0x90 ≤ c1 ∧ c1 ≤ 0xBF)
         else if b = 0xF4 then decide (0x80 ≤ c1 ∧ c1 ≤ 0x8F)
         else utf8Cont c1) && utf8Cont c2 && utf8Cont c3 && utf8Valid r
      | _ => false
    else false

/-- Drop the trailing NUL bytes, as `trim_end_matches(char::from(0))` does on
the decoded string. -/
def trimEndNul (key : List Nat) : List Nat :=
  (key.reverse.dropWhile (fun b => b == 0)).reverse

/-- The `Debug` impl for `InlineCacheKey`: `from_utf8(&self.key).unwrap()` —
the `unwrap` panics (`none`) on invalid UTF-8; otherwise the written output is
the key's bytes.  Output strings are kept as byte lists. -/
def InlineCacheKey.fmtDebug (key : List Nat) : Option (List Nat) :=
  if utf8Valid key then some key else none

/-- The `Display` impl for `InlineCacheKey`: invalid UTF-8 is mapped to
`fmt::Error` (an error return, not a panic); otherwise the NUL-trimmed key is
written. -/
def InlineCacheKey.fmtDisplay (key : List Nat) : Except Unit (List Nat) :=
  if utf8Valid key then Except.ok (trimEndNul key) else Except.error ()

/-! ## Concrete fixtures for witnesses and counterexamples -/

/-- Bytes of a synthetic block file: valid magic `0xc104cac3` at offset 0,
`entry_size = 256` at offset 12, everything else zero. -/
def wbytes (i : Nat) : Nat :=
  if i = 0 then 0xc3 else if i = 1 then 0xca else if i = 2 then 0x04
  else if i = 3 then 0xc1 else if i = 13 then 1 else 0

/-- A block file with a valid header and one all-zero 256-byte entry. -/
def wbuf : ByteBuf := ⟨8448, wbytes⟩

/-- A block file cut off right after its (valid) header. -/
def wbufShort : ByteBuf := ⟨8192, wbytes⟩

/-- An empty data file. -/
def emptyBuf : ByteBuf := ⟨0, fun _ => 0⟩

/-- One data file, number 0, holding `wbuf`. -/
def wfiles : DataFilesMap := fun n => if n = 0 then some wbuf else none

/-- A cache address: initialized, type tag 2 (`Block256`), file number 0,
start block 0. -/
def waddr : CacheAddr := 0xA0000000

/-- The slice `get_buffer` resolves for `waddr` inside `wbuf`. -/
def wslice : BufferSlice := ⟨wbuf, 8192, 256⟩

/-- The parse of `wslice`: the all-zero entry. -/
def wentry : BlockFileCacheEntry where
  hash := 0
  next := 0
  rankings_node := 0
  reuse_count := 0
  refetch_count := 0
  state := 0
  creation_time := 0
  key_len := 0
  long_key := 0
  data_size := [0, 0, 0, 0]
  data_addr := [0, 0, 0, 0]
  flags := 0
  pad := [0, 0, 0, 0]
  self_hash := 0
  key := List.replicate 160 0

/-- Bytes of a block file whose header declares `entry_size = 16`: its
16-byte records can never overlay the 256-byte entry struct. -/
def cbytes (i : Nat) : Nat :=
  if i = 0 then 0xc3 else if i = 1 then 0xca else if i = 2 then 0x04
  else if i = 3 then 0xc1 else if i = 12 then 16 else 0

/-- A block file with a valid header, `entry_size = 16`, one 16-byte record. -/
def cbuf : ByteBuf := ⟨8208, cbytes⟩

/-- One data file, number 0, holding `cbuf`. -/
def cfiles : DataFilesMap := fun n => if n = 0 then some cbuf else none

/-- The slice `get_buffer` resolves for `waddr` inside `cbuf`. -/
def cslice : BufferSlice := ⟨cbuf, 8192, 16⟩

/-- 160 bytes starting with `0xFF`: not valid UTF-8. -/
def badKey : List Nat := 255 :: List.replicate 159 0

/-! ## Helper lemmas -/

/-- The 3-bit type tag is below 8 for every raw value. -/
theorem tag_lt_eight (v : Nat) : (v &&& FILE_TYPE_MASK) >>> FILE_TYPE_OFFSET < 8 := by
  have h1 : v &&& FILE_TYPE_MASK ≤ FILE_TYPE_MASK := Nat.and_le_right
  have h2 : (v &&& FILE_TYPE_MASK) >>> FILE_TYPE_OFFSET ≤
      FILE_TYPE_MASK >>> FILE_TYPE_OFFSET := by
    simpa [Nat.shiftRight_eq_div_pow] using
      Nat.div_le_div_right (c := 2 ^ FILE_TYPE_OFFSET) h1
  have h3 : FILE_TYPE_MASK >>> FILE_TYPE_OFFSET = 7 := by decide
  omega

/-- `file_type` never reaches its panic branch. -/
theorem file_type_total (v : CacheAddr) : ∃ ft, file_type v = some ft := by
  have h := tag_lt_eight v
  unfold file_type
  generalize hgen : (v &&& FILE_TYPE_MASK) >>> FILE_TYPE_OFFSET = t at h
  interval_cases t <;> exact ⟨_, rfl⟩

/-- `file_number` never reaches a panic. -/
theorem file_number_total (v : CacheAddr) : ∃ n, file_number v = some n := by
  obtain ⟨ft, hft⟩ := file_type_total v
  unfold file_number
  rw [hft]
  cases ft <;> exact ⟨_, rfl⟩

/-! ## Claim C4 -/

/-- Claim C4: decoding a `CacheAddr` is total for every raw 32-bit value.
`file_type` and `file_number` always return (their panic branches are
unreachable: the 3-bit mask shifted right by 28 only produces 0 through 7),
and `start_block` and `num_blocks` are plain mask/shift computations that
always return. -/
theorem cacheAddr_decode_total (v : CacheAddr) :
    (v &&& FILE_TYPE_MASK) >>> FILE_TYPE_OFFSET < 8 ∧
    (∃ ft, file_type v = some ft) ∧
    (∃ n, file_number v = some n) ∧
    start_block v = v &&& START_BLOCK_MASK ∧
    num_blocks v = ((v &&& NUM_BLOCKS_MASK) >>> NUM_BLOCKS_OFFSET) + 1 :=
  ⟨tag_lt_eight v, file_type_total v, file_number_total v, rfl, rfl⟩

/-- Witness for C4 at the value `0xdeadbeef`. -/
theorem cacheAddr_decode_total_witness :
    (∃ ft, file_type 0xdeadbeef = some ft) ∧ (∃ n, file_number 0xdeadbeef = some n) :=
  ⟨(cacheAddr_decode_total 0xdeadbeef).2.1, (cacheAddr_decode_total 0xdeadbeef).2.2.1⟩

/-! ## Claim C5 -/

/-- Counterexample to claim C5: `is_initialized` is not "bit 31 of the value":
the raw value 1 has bit 31 clear, yet `is_initialized 1` is `true`. -/
theorem is_initialized_bit31_counterexample :
    is_initialized 1 = true ∧ Nat.testBit 1 31 = false := by decide

/-- Claim C5 (amended): `is_initialized` returns `true` exactly when some bit
of the value is set, i.e. exactly when the value is non-zero; the value 0 means
"not set". -/
theorem is_initialized_iff_some_bit (v : CacheAddr) :
    (is_initialized v = true ↔ ∃ i, Nat.testBit v i = true) ∧
    is_initialized 0 = false := by
  refine ⟨⟨fun h => ?_, fun h => ?_⟩, rfl⟩
  · by_contra hc
    push_neg at hc
    have hv : v = 0 := Nat.eq_of_testBit_eq fun i => by
      simp [Nat.zero_testBit, Bool.eq_false_iff, hc i]
    rw [hv] at h
    exact absurd h (by decide)
  · obtain ⟨i, hi⟩ := h
    simp only [is_initialized, bne_iff_ne, ne_eq]
    intro hv
    rw [hv] at hi
    simp [Nat.zero_testBit] at hi

/-- Witness for the amended C5 at the value 5. -/
theorem is_initialized_iff_some_bit_witness : ∃ i, Nat.testBit 5 i = true :=
  (is_initialized_iff_some_bit 5).1.mp (by decide)

/-! ## Claim C6 -/

/-- The checked subtraction when it does not underflow. -/
theorem u64_checked_sub_pos (a b : Nat) (h : b ≤ a) :
    u64_checked_sub a b = some (a - b) := by
  unfold u64_checked_sub
  rw [if_pos h]

/-- The checked subtraction underflows exactly on `¬ b ≤ a`. -/
theorem u64_checked_sub_neg (a b : Nat) (h : ¬ b ≤ a) :
    u64_checked_sub a b = none := by
  unfold u64_checked_sub
  rw [if_neg h]

/-- `into_datetime_utc` on an underflowing subtraction. -/
theorem into_datetime_utc_underflow (raw : Nat)
    (h : u64_checked_sub raw WIN_TO_UNIX_EPOCH_DIFF_MICROSEC = none) :
    into_datetime_utc raw = Except.error (CCPError.invalidTimestamp raw) := by
  unfold into_datetime_utc
  rw [h]

/-- `into_datetime_utc` when the subtraction succeeds but chrono rejects the
resulting instant. -/
theorem into_datetime_utc_invalid (raw u : Nat)
    (hsub : u64_checked_sub raw WIN_TO_UNIX_EPOCH_DIFF_MICROSEC = some u)
    (hft : DateTime.from_timestamp (u64_as_i64 (u / MICROSEC_PER_SEC))
        ((u % MICROSEC_PER_SEC) * NANOSEC_PER_MICROSEC) = none) :
    into_datetime_utc raw = Except.error (CCPError.invalidTimestamp raw) := by
  unfold into_datetime_utc
  rw [hsub]
  dsimp only
  rw [hft]

/-- `into_datetime_utc` when subtraction and chrono conversion both succeed. -/
theorem into_datetime_utc_ok (raw u : Nat) (dt : Int × Nat)
    (hsub : u64_checked_sub raw WIN_TO_UNIX_EPOCH_DIFF_MICROSEC = some u)
    (hft : DateTime.from_timestamp (u64_as_i64 (u / MICROSEC_PER_SEC))
        ((u % MICROSEC_PER_SEC) * NANOSEC_PER_MICROSEC) = some dt) :
    into_datetime_utc raw = Except.ok dt := by
  unfold into_datetime_utc
  rw [hsub]
  dsimp only
  rw [hft]

/-- Claim C6: the UTC time decode subtracts the Windows-to-Unix epoch delta of
11 644 473 600 seconds in microseconds, fails with an invalid-timestamp error
exactly when the subtraction underflows or when the resulting seconds and
nanoseconds cannot form a valid instant, never fails any other way, returns
the corresponding instant otherwise, and fails on the raw value 0. -/
theorem into_datetime_utc_spec (raw : Nat) :
    (into_datetime_utc raw = Except.error (CCPError.invalidTimestamp raw) ↔
      raw < WIN_TO_UNIX_EPOCH_DIFF_MICROSEC ∨
      DateTime.from_timestamp
        (u64_as_i64 ((raw - WIN_TO_UNIX_EPOCH_DIFF_MICROSEC) / MICROSEC_PER_SEC))
        (((raw - WIN_TO_UNIX_EPOCH_DIFF_MICROSEC) % MICROSEC_PER_SEC) *
          NANOSEC_PER_MICROSEC) = none) ∧
    (∀ dt, WIN_TO_UNIX_EPOCH_DIFF_MICROSEC ≤ raw →
      DateTime.from_timestamp
        (u64_as_i64 ((raw - WIN_TO_UNIX_EPOCH_DIFF_MICROSEC) / MICROSEC_PER_SEC))
        (((raw - WIN_TO_UNIX_EPOCH_DIFF_MICROSEC) % MICROSEC_PER_SEC) *
          NANOSEC_PER_MICROSEC) = some dt →
      into_datetime_utc raw = Except.ok dt) ∧
    (∀ e, into_datetime_utc raw = Except.error e → e = CCPError.invalidTimestamp raw) ∧
    into_datetime_utc 0 = Except.error (CCPError.invalidTimestamp 0) := by
  have h0 : into_datetime_utc 0 = Except.error (CCPError.invalidTimestamp 0) :=
    into_datetime_utc_underflow 0 (u64_checked_sub_neg 0 _ (by decide))
  by_cases h : WIN_TO_UNIX_EPOCH_DIFF_MICROSEC ≤ raw
  · have e1 := u64_checked_sub_pos raw WIN_TO_UNIX_EPOCH_DIFF_MICROSEC h
    cases hft : DateTime.from_timestamp
        (u64_as_i64 ((raw - WIN_TO_UNIX_EPOCH_DIFF_MICROSEC) / MICROSEC_PER_SEC))
        (((raw - WIN_TO_UNIX_EPOCH_DIFF_MICROSEC) % MICROSEC_PER_SEC) *
          NANOSEC_PER_MICROSEC) with
    | none =>
      have he := into_datetime_utc_invalid raw _ e1 hft
      refine ⟨⟨fun _ => Or.inr rfl, fun _ => he⟩, ?_, ?_, h0⟩
      · intro dt _ hft2
        exact Option.noConfusion hft2
      · intro e hee
        rw [he] at hee
        injection hee with h2
        exact h2.symm
    | some dt =>
      have hok := into_datetime_utc_ok raw _ dt e1 hft
      refine ⟨?_, ?_, ?_, h0⟩
      · constructor
        · intro hcontra
          exact absurd (hok.symm.trans hcontra) (by simp)
        · intro hcontra
          rcases hcontra with hlt | hnone
          · omega
          · exact Option.noConfusion hnone
      · intro dt2 _ hft2
        have hdd : dt = dt2 := Option.some.inj hft2
        rw [← hdd]
        exact hok
      · intro e hee
        rw [hok] at hee
        exact absurd hee (by simp)
  · have he := into_datetime_utc_underflow raw (u64_checked_sub_neg raw _ h)
    refine ⟨⟨fun _ => Or.inl (by omega), fun _ => he⟩, ?_, ?_, h0⟩
    · intro dt hle
      exact absurd hle h
    · intro e hee
      rw [he] at hee
      injection hee with h2
      exact h2.symm

/-- Witness for C6: the fixture timestamp of the repository's test decodes to
the instant 2024-05-13, and the raw value 0 fails. -/
theorem into_datetime_utc_spec_witness :
    into_datetime_utc 13360111021811283 = Except.ok (1715637421, 811283000) ∧
    into_datetime_utc 0 = Except.error (CCPError.invalidTimestamp 0) :=
  ⟨(into_datetime_utc_spec 13360111021811283).2.1 (1715637421, 811283000)
      (by decide) (by decide),
    (into_datetime_utc_spec 0).2.2.2⟩

/-! ## Claim C3 -/

/-- The view of the first 8192 bytes of a buffer, as the header slicing
produces it. -/
def headerView (b : ByteBuf) : ByteBuf :=
  ⟨BLOCK_HEADER_SIZE, fun i => b.byteAt (0 + i)⟩

/-- Slicing the header succeeds on buffers of at least 8192 bytes. -/
theorem index_header (b : ByteBuf) (h8 : BLOCK_HEADER_SIZE ≤ b.len) :
    b.index 0 BLOCK_HEADER_SIZE = some (headerView b) := by
  unfold ByteBuf.index headerView
  rw [if_pos ⟨Nat.zero_le _, h8⟩, Nat.sub_zero]

/-- Slicing the header panics on buffers shorter than 8192 bytes. -/
theorem index_header_short (b : ByteBuf) (h : b.len < BLOCK_HEADER_SIZE) :
    b.index 0 BLOCK_HEADER_SIZE = none := by
  unfold ByteBuf.index
  rw [if_neg]
  rintro ⟨-, h2⟩
  omega

/-- The header overlay always succeeds on the exact-size view. -/
theorem ref_from_headerView (b : ByteBuf) :
    BlockFileHeader.ref_from (headerView b) =
      some (parseBlockFileHeader (headerView b)) := by
  unfold BlockFileHeader.ref_from
  rw [if_pos]
  rfl

/-- `header` panics on a buffer shorter than the header size. -/
theorem header_short (b : ByteBuf) (h : b.len < BLOCK_HEADER_SIZE) :
    LazyBlockFile.header b = none := by
  unfold LazyBlockFile.header
  rw [index_header_short b h]

/-- `header` with enough bytes but a wrong magic returns the invalid-data
error. -/
theorem header_bad_magic (b : ByteBuf) (h8 : BLOCK_HEADER_SIZE ≤ b.len)
    (hm : (parseBlockFileHeader (headerView b)).magic ≠ BLOCK_MAGIC) :
    LazyBlockFile.header b = some (Except.error
      (CCPError.invalidData (blockMagicMsg (parseBlockFileHeader (headerView b)).magic))) := by
  unfold LazyBlockFile.header
  rw [index_header b h8]
  dsimp only
  rw [ref_from_headerView b]
  dsimp only
  rw [if_pos hm]

/-- `header` with enough bytes and the right magic returns the overlay. -/
theorem header_good (b : ByteBuf) (h8 : BLOCK_HEADER_SIZE ≤ b.len)
    (hm : (parseBlockFileHeader (headerView b)).magic = BLOCK_MAGIC) :
    LazyBlockFile.header b = some (Except.ok (parseBlockFileHeader (headerView b))) := by
  unfold LazyBlockFile.header
  rw [index_header b h8]
  dsimp only
  rw [ref_from_headerView b]
  dsimp only
  rw [if_neg (fun hne => hne hm)]

/-- Counterexample to claim C3: on a buffer shorter than 8192 bytes, `header`
panics (the slicing `&buffer[0..8192]` is out of range) instead of returning a
data-misalignment error — here on the empty buffer. -/
theorem header_short_counterexample :
    emptyBuf.len < BLOCK_HEADER_SIZE ∧ LazyBlockFile.header emptyBuf = none ∧
    ¬ ∃ msg, LazyBlockFile.header emptyBuf =
        some (Except.error (CCPError.dataMisalignment msg)) := by
  refine ⟨by decide, header_short emptyBuf (by decide), ?_⟩
  rintro ⟨msg, hmsg⟩
  rw [header_short emptyBuf (by decide)] at hmsg
  exact Option.noConfusion hmsg

/-- Claim C3 (amended): on a buffer shorter than the 8192-byte header size,
`header()` panics via slice indexing (it does not return an error); on a
buffer of at least 8192 bytes it returns an invalid-data error — never a
usable header — exactly when the magic of the first 8192 bytes differs from
0xC104CAC3, and otherwise returns the header overlay of those bytes. -/
theorem lazyBlockFile_header_spec (b : ByteBuf) :
    (b.len < BLOCK_HEADER_SIZE → LazyBlockFile.header b = none) ∧
    (BLOCK_HEADER_SIZE ≤ b.len →
      (parseBlockFileHeader (headerView b)).magic ≠ BLOCK_MAGIC →
      LazyBlockFile.header b = some (Except.error (CCPError.invalidData
        (blockMagicMsg (parseBlockFileHeader (headerView b)).magic)))) ∧
    (BLOCK_HEADER_SIZE ≤ b.len →
      (parseBlockFileHeader (headerView b)).magic = BLOCK_MAGIC →
      LazyBlockFile.header b = some (Except.ok (parseBlockFileHeader (headerView b)))) :=
  ⟨header_short b, header_bad_magic b, header_good b⟩

/-- Witness for the amended C3: the empty buffer panics; the synthetic
header-only file parses. -/
theorem lazyBlockFile_header_spec_witness :
    LazyBlockFile.header emptyBuf = none ∧
    LazyBlockFile.header wbufShort =
      some (Except.ok (parseBlockFileHeader (headerView wbufShort))) :=
  ⟨(lazyBlockFile_header_spec emptyBuf).1 (by decide),
    (lazyBlockFile_header_spec wbufShort).2.2 (by decide) (by decide)⟩

/-! ## Claim C9 -/

/-- `get_buffer` under a valid header returns the computed slice. -/
theorem get_buffer_ok (b : ByteBuf) (addr : CacheAddr)
    (h8 : BLOCK_HEADER_SIZE ≤ b.len)
    (hm : (parseBlockFileHeader (headerView b)).magic = BLOCK_MAGIC) :
    LazyBlockFile.get_buffer b addr = some (Except.ok
      ⟨b, BLOCK_HEADER_SIZE + start_block addr *
            i32_as_usize (parseBlockFileHeader (headerView b)).entry_size,
          i32_as_usize (parseBlockFileHeader (headerView b)).entry_size⟩) := by
  unfold LazyBlockFile.get_buffer
  rw [header_good b h8 hm]

/-- `BufferSlice::get` panics when the range overruns the buffer. -/
theorem bufferSlice_get_none (s : BufferSlice) (h : s.buffer.len < s.start + s.size) :
    s.get = none := by
  unfold BufferSlice.get
  rw [if_neg]
  omega

/-- `BufferSlice::get` succeeds when the range fits. -/
theorem bufferSlice_get_some (s : BufferSlice) (h : s.start + s.size ≤ s.buffer.len) :
    s.get = some ⟨s.size, fun i => s.buffer.byteAt (s.start + i)⟩ := by
  unfold BufferSlice.get
  rw [if_pos h]

/-- The entry view's `get` panics whenever the slice extraction does. -/
theorem entryGet_of_get_none (s : BufferSlice) (h : s.get = none) :
    LazyBlockFileCacheEntry.get s = none := by
  unfold LazyBlockFileCacheEntry.get
  rw [h]

/-- Claim C9: `get_buffer` performs no bounds check — on a buffer whose first
8192 bytes form a valid header but whose length is below
`8192 + (start_block + 1) * entry_size`, it returns `Ok` with a slice whose
range extends past the buffer's end, and the later `BufferSlice::get` (hence
the entry view's `get()`) panics instead of returning an error. -/
theorem get_buffer_no_bounds_check (b : ByteBuf) (addr : CacheAddr)
    (h8 : BLOCK_HEADER_SIZE ≤ b.len)
    (hm : (parseBlockFileHeader (headerView b)).magic = BLOCK_MAGIC)
    (hlen : b.len < BLOCK_HEADER_SIZE + (start_block addr + 1) *
      i32_as_usize (parseBlockFileHeader (headerView b)).entry_size) :
    ∃ s : BufferSlice,
      LazyBlockFile.get_buffer b addr = some (Except.ok s) ∧
      s.buffer = b ∧
      s.start = BLOCK_HEADER_SIZE + start_block addr *
        i32_as_usize (parseBlockFileHeader (headerView b)).entry_size ∧
      s.size = i32_as_usize (parseBlockFileHeader (headerView b)).entry_size ∧
      b.len < s.start + s.size ∧
      s.get = none ∧
      LazyBlockFileCacheEntry.get s = none := by
  have hd : (start_block addr + 1) *
      i32_as_usize (parseBlockFileHeader (headerView b)).entry_size =
      start_block addr * i32_as_usize (parseBlockFileHeader (headerView b)).entry_size +
      i32_as_usize (parseBlockFileHeader (headerView b)).entry_size := by ring
  refine ⟨_, get_buffer_ok b addr h8 hm, rfl, rfl, rfl, ?_, ?_, ?_⟩
  · dsimp only
    omega
  · apply bufferSlice_get_none
    dsimp only
    omega
  · apply entryGet_of_get_none
    apply bufferSlice_get_none
    dsimp only
    omega

/-- Witness for C9: the header-only file with a valid header and
`entry_size = 256` resolves block 0 to the out-of-range slice [8192, 8448)
whose extraction panics. -/
theorem get_buffer_no_bounds_check_witness :
    ∃ s : BufferSlice,
      LazyBlockFile.get_buffer wbufShort waddr = some (Except.ok s) ∧
      s.buffer = wbufShort ∧
      s.start = BLOCK_HEADER_SIZE + start_block waddr *
        i32_as_usize (parseBlockFileHeader (headerView wbufShort)).entry_size ∧
      s.size = i32_as_usize (parseBlockFileHeader (headerView wbufShort)).entry_size ∧
      wbufShort.len < s.start + s.size ∧
      s.get = none ∧
      LazyBlockFileCacheEntry.get s = none :=
  get_buffer_no_bounds_check wbufShort waddr (by decide) (by decide) (by decide)

/-! ## Claim C1 -/

/-- Decidable equality of `Except` results, for evaluating fixtures. -/
instance exceptDecEq {e a : Type} [DecidableEq e] [DecidableEq a] :
    DecidableEq (Except e a) := fun x y =>
  match x, y with
  | Except.ok v, Except.ok w =>
    if h : v = w then isTrue (by rw [h]) else isFalse (fun hc => h (Except.ok.inj hc))
  | Except.error v, Except.error w =>
    if h : v = w then isTrue (by rw [h]) else isFalse (fun hc => h (Except.error.inj hc))
  | Except.ok _, Except.error _ => isFalse (fun hc => Except.noConfusion hc)
  | Except.error _, Except.ok _ => isFalse (fun hc => Except.noConfusion hc)

/-- Unfolding one fueled step of the iterator driver. -/
theorem run_succ (files : DataFilesMap) (fuel : Nat) (cur : Option CacheAddr) :
    LazyBlockFileCacheEntryIterator.run files (fuel + 1) cur =
      match LazyBlockFileCacheEntryIterator.nextStep files cur with
      | StepResult.yield item newCur =>
        item :: LazyBlockFileCacheEntryIterator.run files fuel newCur
      | _ => [] := rfl

/-- One iterator step on a resolvable, parseable entry yields the lazy view
and schedules the entry's `next` address. -/
theorem nextStep_yield (files : DataFilesMap) (addr : CacheAddr)
    (slice : BufferSlice) (e : BlockFileCacheEntry)
    (hres : DataFiles.get_entry files addr = some (Except.ok slice))
    (hparse : LazyBlockFileCacheEntry.get slice = some (Except.ok e)) :
    LazyBlockFileCacheEntryIterator.nextStep files (some addr) =
      StepResult.yield slice (if is_initialized e.next then some e.next else none) := by
  unfold LazyBlockFileCacheEntryIterator.nextStep
  dsimp only
  rw [hres]
  dsimp only
  rw [hparse]

/-- The iterator on an exhausted `current` is done. -/
theorem nextStep_none (files : DataFilesMap) :
    LazyBlockFileCacheEntryIterator.nextStep files none = StepResult.done := by
  unfold LazyBlockFileCacheEntryIterator.nextStep
  rfl

/-- Claim C1: for a starting address whose resolved entry parses, one step
yields that entry's lazy view; the iterator's `current` becomes the entry's
`next` field when that field is initialized (non-zero), and is cleared
otherwise — so a chain of a single entry with uninitialized `next` yields
exactly one item and then terminates. -/
theorem entry_chain_step_spec (files : DataFilesMap) (addr : CacheAddr)
    (slice : BufferSlice) (e : BlockFileCacheEntry)
    (hres : DataFiles.get_entry files addr = some (Except.ok slice))
    (hparse : LazyBlockFileCacheEntry.get slice = some (Except.ok e)) :
    (is_initialized e.next = true →
      LazyBlockFileCacheEntryIterator.nextStep files (some addr) =
        StepResult.yield slice (some e.next)) ∧
    (is_initialized e.next = false →
      LazyBlockFileCacheEntryIterator.nextStep files (some addr) =
        StepResult.yield slice none ∧
      ∀ fuel, LazyBlockFileCacheEntryIterator.run files (fuel + 2) (some addr) =
        [slice]) := by
  have h := nextStep_yield files addr slice e hres hparse
  constructor
  · intro hi
    rw [h, hi]
    rfl
  · intro hi
    have hy : LazyBlockFileCacheEntryIterator.nextStep files (some addr) =
        StepResult.yield slice none := by
      rw [h, hi]
      rfl
    refine ⟨hy, fun fuel => ?_⟩
    show LazyBlockFileCacheEntryIterator.run files (fuel + 1 + 1) (some addr) = [slice]
    rw [run_succ, hy]
    dsimp only
    rw [run_succ, nextStep_none files]

set_option maxRecDepth 4000 in
/-- Witness for C1: on the synthetic one-entry block file (valid header,
`entry_size = 256`, all-zero entry so `next` is uninitialized) the iterator
started at block 0 yields exactly one item. -/
theorem entry_chain_step_spec_witness :
    LazyBlockFileCacheEntryIterator.run wfiles 2 (some waddr) = [wslice] :=
  ((entry_chain_step_spec wfiles waddr wslice wentry rfl (by decide)).2 (by decide)).2 0

/-! ## Claim C2 -/

/-- Claim C2 (amended): when resolving the current address returns an error
(missing data file, bad header), the iterator terminates immediately, yielding
nothing; when resolution succeeds but the resolved bytes fail to parse as an
entry, the iterator yields the (unparseable) lazy view once without scheduling
a next address, and the following step terminates.  In neither case is an
error value propagated out of the iterator. -/
theorem entry_chain_error_spec (files : DataFilesMap) (addr : CacheAddr) :
    (∀ err, DataFiles.get_entry files addr = some (Except.error err) →
      LazyBlockFileCacheEntryIterator.nextStep files (some addr) = StepResult.done) ∧
    (∀ slice err, DataFiles.get_entry files addr = some (Except.ok slice) →
      LazyBlockFileCacheEntry.get slice = some (Except.error err) →
      LazyBlockFileCacheEntryIterator.nextStep files (some addr) =
        StepResult.yield slice none ∧
      LazyBlockFileCacheEntryIterator.nextStep files none = StepResult.done) := by
  constructor
  · intro err hres
    unfold LazyBlockFileCacheEntryIterator.nextStep
    dsimp only
    rw [hres]
  · intro slice err hres hparse
    refine ⟨?_, nextStep_none files⟩
    unfold LazyBlockFileCacheEntryIterator.nextStep
    dsimp only
    rw [hres]
    dsimp only
    rw [hparse]

/-- Counterexample to claim C2: when the 16-byte record of `cbuf` fails to
parse as a 256-byte entry, the step does not terminate the sequence — it
yields one more item (the lazy view whose own `get` fails). -/
theorem entry_chain_error_counterexample :
    DataFiles.get_entry cfiles waddr = some (Except.ok cslice) ∧
    LazyBlockFileCacheEntry.get cslice =
      some (Except.error (CCPError.dataMisalignment ("block file cache entry at 8192"))) ∧
    LazyBlockFileCacheEntryIterator.nextStep cfiles (some waddr) ≠ StepResult.done := by
  refine ⟨rfl, by decide, ?_⟩
  have hy : LazyBlockFileCacheEntryIterator.nextStep cfiles (some waddr) =
      StepResult.yield cslice none := rfl
  rw [hy]
  intro hcontra
  exact StepResult.noConfusion hcontra

/-- Witness for the amended C2 on the `cbuf` fixture: the unparseable record
is yielded once and the next step is done. -/
theorem entry_chain_error_spec_witness :
    LazyBlockFileCacheEntryIterator.nextStep cfiles (some waddr) =
      StepResult.yield cslice none ∧
    LazyBlockFileCacheEntryIterator.nextStep cfiles none = StepResult.done :=
  (entry_chain_error_spec cfiles waddr).2 cslice
    (CCPError.dataMisalignment ("block file cache entry at 8192")) rfl (by decide)

/-! ## Claim C7 -/

/-- The per-slot closure never panics and agrees with its total restatement. -/
theorem mkStreamReader_eq_slot (cachePath : String) (a : CacheAddr) (sz : Int) :
    mkStreamReader cachePath a sz = some (slotResult cachePath a sz) := by
  obtain ⟨ft, hft⟩ := file_type_total a
  unfold mkStreamReader slotResult
  rw [hft]
  cases ft <;> rfl

/-- Collecting the slot readers never panics: it is the pointwise map of
`slotResult`. -/
theorem collectReaders_eq (cachePath : String) :
    ∀ l : List (CacheAddr × Int),
      collectReaders cachePath l = some (l.map (fun p => slotResult cachePath p.1 p.2))
  | [] => rfl
  | p :: rest => by
    unfold collectReaders
    rw [mkStreamReader_eq_slot, collectReaders_eq cachePath rest]
    rfl

/-- A successfully parsed entry has exactly 4 data addresses and sizes. -/
theorem entry_parse_lengths (s : BufferSlice) (e : BlockFileCacheEntry)
    (h : LazyBlockFileCacheEntry.get s = some (Except.ok e)) :
    e.data_addr.length = 4 ∧ e.data_size.length = 4 := by
  unfold LazyBlockFileCacheEntry.get at h
  cases hget : s.get with
  | none =>
    rw [hget] at h
    exact Option.noConfusion h
  | some bytes =>
    rw [hget] at h
    dsimp only at h
    unfold BlockFileCacheEntry.ref_from at h
    by_cases hlen : bytes.len = 256
    · rw [if_pos hlen] at h
      dsimp only at h
      obtain rfl : parseBlockFileCacheEntry bytes = e :=
        Except.ok.inj (Option.some.inj h)
      exact ⟨rfl, rfl⟩
    · rw [if_neg hlen] at h
      dsimp only at h
      exact Except.noConfusion (Option.some.inj h)

/-- On a parseable entry, `stream_readers` returns the pointwise slot results
over the four `(data_addr, data_size)` pairs. -/
theorem stream_readers_ok (cachePath : String) (s : BufferSlice)
    (e : BlockFileCacheEntry)
    (hparse : LazyBlockFileCacheEntry.get s = some (Except.ok e)) :
    LazyBlockFileCacheEntry.stream_readers cachePath s = some (Except.ok
      ((e.data_addr.zip e.data_size).map
        (fun p => slotResult cachePath p.1 p.2))) := by
  unfold LazyBlockFileCacheEntry.stream_readers
  rw [hparse]
  dsimp only
  rw [collectReaders_eq]

/-- Claim C7: for every parseable entry, `stream_readers` returns exactly 4
per-slot results, each depending only on that slot's `(data_addr, data_size)`
pair: an External slot yields an external file reader, a Block256/Block1k/
Block4k slot yields a block stream reader bounded to the slot's `data_size`
bytes, and any other tag yields an invalid-state error for that slot only. -/
theorem stream_readers_spec (cachePath : String) (s : BufferSlice)
    (e : BlockFileCacheEntry)
    (hparse : LazyBlockFileCacheEntry.get s = some (Except.ok e)) :
    ∃ rs : List (Except CCPError Reader),
      LazyBlockFileCacheEntry.stream_readers cachePath s = some (Except.ok rs) ∧
      rs = (e.data_addr.zip e.data_size).map (fun p => slotResult cachePath p.1 p.2) ∧
      rs.length = 4 ∧
      (∀ a sz, file_type a = some FileType.external →
        slotResult cachePath a sz = Except.ok (Reader.external a cachePath)) ∧
      (∀ a sz ft, file_type a = some ft →
        (ft = FileType.block256 ∨ ft = FileType.block1k ∨ ft = FileType.block4k) →
        slotResult cachePath a sz = Except.ok (Reader.blockStream a (i32_as_usize sz))) ∧
      (∀ a sz ft, file_type a = some ft → ft ≠ FileType.external →
        ft ≠ FileType.block256 → ft ≠ FileType.block1k → ft ≠ FileType.block4k →
        slotResult cachePath a sz = Except.error (CCPError.invalidState
          ("Requested stream reader of nonsense address type " ++ ft.debugName))) := by
  obtain ⟨ha, hs⟩ := entry_parse_lengths s e hparse
  refine ⟨_, stream_readers_ok cachePath s e hparse, rfl, ?_, ?_, ?_, ?_⟩
  · rw [List.length_map, List.length_zip, ha, hs]
    rfl
  · intro a sz hft
    unfold slotResult
    rw [hft]
  · intro a sz ft hft hcases
    unfold slotResult
    rw [hft]
    rcases hcases with h | h | h <;> subst h <;> rfl
  · intro a sz ft hft h1 h2 h3 h4
    unfold slotResult
    rw [hft]
    cases ft with
    | external => exact absurd rfl h1
    | block256 => exact absurd rfl h2
    | block1k => exact absurd rfl h3
    | block4k => exact absurd rfl h4
    | rankings => rfl
    | blockFiles => rfl
    | blockEntries => rfl
    | blockEvicted => rfl

set_option maxRecDepth 4000 in
/-- Witness for C7 on the all-zero entry of the synthetic block file. -/
theorem stream_readers_spec_witness :
    ∃ rs : List (Except CCPError Reader),
      LazyBlockFileCacheEntry.stream_readers ("cache") wslice =
        some (Except.ok rs) ∧ rs.length = 4 := by
  obtain ⟨rs, h1, -, h3, -⟩ := stream_readers_spec ("cache") wslice wentry (by decide)
  exact ⟨rs, h1, h3⟩

/-! ## Claim C10 -/

/-- Indexing into the mapped zip of two lists. -/
theorem zip_map_get {A B C : Type} (f : A × B → C) :
    ∀ (l1 : List A) (l2 : List B) (i : Nat) (a : A) (b : B),
      l1.get? i = some a → l2.get? i = some b →
      ((l1.zip l2).map f).get? i = some (f (a, b)) := by
  intro l1
  induction l1 with
  | nil =>
    intro l2 i a b h1 h2
    simp at h1
  | cons x l1 ih =>
    intro l2 i a b h1 h2
    cases l2 with
    | nil => simp at h2
    | cons y l2 =>
      cases i with
      | zero =>
        rw [List.get?_cons_zero] at h1 h2
        obtain rfl : x = a := Option.some.inj h1
        obtain rfl : y = b := Option.some.inj h2
        simp [List.zip_cons_cons]
      | succ i =>
        rw [List.get?_cons_succ] at h1 h2
        rw [List.zip_cons_cons, List.map_cons, List.get?_cons_succ]
        exact ih l2 i a b h1 h2

/-- Claim C10: the file-type tag of the raw value 0 decodes to External, so a
data slot whose address is the uninitialized zero value is dispatched by
`stream_readers` as an external file: that slot's result is `Ok` with an
external file reader whose first read opens the file named "f_000000" in the
cache directory — never an error at reader-construction time. -/
theorem stream_readers_zero_addr (cachePath : String) (s : BufferSlice)
    (e : BlockFileCacheEntry) (i : Nat) (sz : Int)
    (hparse : LazyBlockFileCacheEntry.get s = some (Except.ok e))
    (ha : e.data_addr.get? i = some 0)
    (hs : e.data_size.get? i = some sz) :
    file_type 0 = some FileType.external ∧
    ∃ rs : List (Except CCPError Reader),
      LazyBlockFileCacheEntry.stream_readers cachePath s = some (Except.ok rs) ∧
      rs.get? i = some (Except.ok (Reader.external 0 cachePath)) ∧
      externalFileName 0 = some ("f_000000") := by
  refine ⟨rfl, _, stream_readers_ok cachePath s e hparse, ?_, by decide⟩
  have h2 := zip_map_get (fun p => slotResult cachePath p.1 p.2)
    e.data_addr e.data_size i 0 sz ha hs
  rw [h2]
  show some (slotResult cachePath 0 sz) = some (Except.ok (Reader.external 0 cachePath))
  have h3 : slotResult cachePath 0 sz = Except.ok (Reader.external 0 cachePath) := by
    unfold slotResult
    rw [show file_type 0 = some FileType.external by decide]
  rw [h3]

set_option maxRecDepth 4000 in
/-- Witness for C10: slot 0 of the all-zero entry is dispatched as an external
file reader. -/
theorem stream_readers_zero_addr_witness :
    ∃ rs : List (Except CCPError Reader),
      LazyBlockFileCacheEntry.stream_readers ("cache") wslice =
        some (Except.ok rs) ∧
      rs.get? 0 = some (Except.ok (Reader.external 0 ("cache"))) := by
  obtain ⟨-, rs, h1, h2, -⟩ := stream_readers_zero_addr ("cache") wslice wentry 0 0
    (by decide) (by decide) (by decide)
  exact ⟨rs, h1, h2⟩

/-! ## Claim C8 -/

set_option maxRecDepth 4000 in
/-- Counterexample to claim C8: the 160-byte key starting with the byte 0xFF
is not valid UTF-8, and the `Debug` formatting path (`from_utf8(..).unwrap()`)
panics on it instead of returning. -/
theorem inlineKey_debug_counterexample :
    badKey.length = 160 ∧ InlineCacheKey.fmtDebug badKey = none := by decide

/-- Claim C8 (amended): for every 160-byte content of the inline key buffer,
the `Display` path never panics — it writes the NUL-trimmed key on valid UTF-8
and returns a formatting error otherwise — while the `Debug` path panics
exactly when the content is not valid UTF-8. -/
theorem inlineKey_fmt_spec (key : List Nat) (h : key.length = 160) :
    (utf8Valid key = true →
      InlineCacheKey.fmtDebug key = some key ∧
      InlineCacheKey.fmtDisplay key = Except.ok (trimEndNul key)) ∧
    (utf8Valid key = false →
      InlineCacheKey.fmtDebug key = none ∧
      InlineCacheKey.fmtDisplay key = Except.error ()) := by
  constructor
  · intro hv
    constructor
    · unfold InlineCacheKey.fmtDebug
      rw [if_pos hv]
    · unfold InlineCacheKey.fmtDisplay
      rw [if_pos hv]
  · intro hv
    constructor
    · unfold InlineCacheKey.fmtDebug
      simp [hv]
    · unfold InlineCacheKey.fmtDisplay
      simp [hv]

set_option maxRecDepth 4000 in
/-- Witness for the amended C8: the all-NUL key formats on both paths, the
`Display` output being the empty (fully trimmed) string. -/
theorem inlineKey_fmt_spec_witness :
    InlineCacheKey.fmtDebug (List.replicate 160 0) = some (List.replicate 160 0) ∧
    InlineCacheKey.fmtDisplay (List.replicate 160 0) = Except.ok ([]) := by
  have h := (inlineKey_fmt_spec (List.replicate 160 0) (by decide)).1 (by decide)
  refine ⟨h.1, ?_⟩
  rw [h.2, show trimEndNul (List.replicate 160 0) = [] from by decide]
